import Mathlib

/-!
# EternalTerminal client (`terminal/TerminalClient.cpp`): session event loop

A shallow embedding of `main` of the terminal client, from the construction of the
handshake payload (line 72) to the final clean-up (line 282).

* Program variables of `main` are fields of `World`; the terminal device and a record of
  the calls made on the transport and on local output are fields of `World` as well.
* Everything the environment decides is an explicit input: the result of `read` on
  standard input, each value returned by `time(NULL)`, what the transport returns to
  `hasData`, `readMessage` and `readProto`, whether a transport call raises
  `runtime_error`, whether `writeAll` succeeds, and the geometry returned by `ioctl`.
* `LOG(FATAL)` aborts the process, `FAIL_FATAL` leaves it through `exit(errno)`; a
  `runtime_error` raised inside the `try` block is caught at the end of the tick.
* `time_t` is a 64-bit signed integer on the platforms the client runs on; the values
  handled here are wall-clock seconds plus at most 5, so it is embedded as `Int`.
* Loops run against a finite list of inputs by structural recursion; a loop that is still
  running when the list ends reports `none` together with the state it reached, so every
  statement about a run also covers every unfinished run.
* The passkey handling of lines 45–70 happens before anything modelled here and is left
  out.
-/

namespace ET

/-! ## Data model -/

/-- A `std::string`: a sequence of 8-bit characters. -/
abbrev Bytes := List (Fin 256)

/-- Values of the protobuf enumeration `et::PacketType`. The enumeration is declared in
`ETerminal.proto`, which is not among the sources at hand, so its three values are a
parameter of the embedding. -/
structure PacketType where
  TERMINAL_BUFFER : Int
  KEEP_ALIVE : Int
  TERMINAL_INFO : Int
  deriving DecidableEq, Repr

/-- The enumeration is usable as written in `main`: the three values are pairwise
different (two equal `case` labels do not compile, and a protobuf enumeration has no
aliases) and each of them fits in a `char`. -/
def PacketType.Valid (pt : PacketType) : Prop :=
  (0 ≤ pt.TERMINAL_BUFFER ∧ pt.TERMINAL_BUFFER < 128) ∧
  (0 ≤ pt.KEEP_ALIVE ∧ pt.KEEP_ALIVE < 128) ∧
  (0 ≤ pt.TERMINAL_INFO ∧ pt.TERMINAL_INFO < 128) ∧
  pt.TERMINAL_BUFFER ≠ pt.KEEP_ALIVE ∧
  pt.TERMINAL_BUFFER ≠ pt.TERMINAL_INFO ∧
  pt.KEEP_ALIVE ≠ pt.TERMINAL_INFO

instance (pt : PacketType) : Decidable pt.Valid := by
  unfold PacketType.Valid
  infer_instance

/-- Conversion of an `int` to `char`, as in `char c = et::PacketType::TERMINAL_BUFFER`:
the value modulo `2^8`. -/
def toChar (v : Int) : Fin 256 := ⟨(v % 256).toNat, by omega⟩

/-- Integral promotion of a `char` in `switch (packetType)`; `char` is signed on the
platforms the client is built for. -/
def charToInt (c : Fin 256) : Int :=
  if c.val < 128 then (c.val : Int) else (c.val : Int) - 256

/-- The `struct winsize` filled by `ioctl(1, TIOCGWINSZ, _)`. -/
structure Winsize where
  ws_row : Nat
  ws_col : Nat
  ws_xpixel : Nat
  ws_ypixel : Nat
  deriving DecidableEq, Repr

/-- The `struct termios` read by `tcgetattr` and written by `tcsetattr`. -/
structure Termios where
  c_iflag : Nat
  c_oflag : Nat
  c_cflag : Nat
  c_lflag : Nat
  c_line : Nat
  c_cc : List Nat
  c_ispeed : Nat
  c_ospeed : Nat
  deriving DecidableEq, Repr

/-- The protobuf message `et::TerminalInfo`, with the four fields `main` sets. -/
structure TerminalInfo where
  row : Nat
  column : Nat
  width : Nat
  height : Nat
  deriving DecidableEq, Repr

/-- The protobuf messages handed to `writeProto`. -/
inductive Proto where
  | initialPayload (terminal : TerminalInfo) (environmentvar : List String)
  | terminalBuffer (buffer : Bytes)
  | terminalInfo (ti : TerminalInfo)
  deriving DecidableEq, Repr

/-- A completed call on the transport (`globalClient`) or on local output. -/
inductive Event where
  | writeMessage (s : Bytes)
  | writeProto (p : Proto)
  | readMessage (s : Bytes)
  | readProto (buffer : Bytes)
  | closeSocket
  | writeStdout (s : Bytes)
  deriving DecidableEq, Repr

/-- How a piece of `main` hands over control. -/
inductive Ctl where
  /-- Control falls through to the next statement. -/
  | next
  /-- A `runtime_error` is propagating. -/
  | raised
  /-- The process left through `exit(status)`. -/
  | exit (status : Int)
  /-- The process was aborted by `LOG(FATAL)`. -/
  | abort
  deriving DecidableEq, Repr

/-- State of the session: the variables of `main` that live across ticks, the terminal
device, and the record of what the program has done so far. -/
structure World where
  /-- Variable `win`: the last geometry seen. -/
  win : Winsize
  /-- The global `terminal_backup`. -/
  terminal_backup : Termios
  /-- Variable `run`. -/
  run : Bool
  /-- Variable `keepaliveTime`. -/
  keepaliveTime : Int
  /-- Variable `waitingOnKeepalive`. -/
  waitingOnKeepalive : Bool
  /-- Attributes of the terminal device behind file descriptor 0. -/
  termios : Termios
  /-- The value most recently returned by `time(NULL)`. -/
  clock : Int
  /-- Whether no call of `time(NULL)` so far returned less than the call before it. -/
  clockOk : Bool
  /-- The completed calls, most recent first, each with the value of `clock` when it
  was made. -/
  trace : List (Int × Event)
  deriving DecidableEq, Repr

/-- A call `time(NULL)` that returns `t`. -/
def World.now (w : World) (t : Int) : World :=
  { w with clockOk := w.clockOk && decide (w.clock ≤ t), clock := t }

/-- Record a completed call. -/
def World.emit (w : World) (e : Event) : World :=
  { w with trace := (w.clock, e) :: w.trace }

/-! ## Bootstrap (lines 72–108) -/

/-- What the process finds when it starts. -/
structure Env where
  /-- Result of `ioctl(1, TIOCGWINSZ, &win)` at line 74. -/
  win : Winsize
  /-- Result of `getenv("TERM")`. -/
  term : Option String
  /-- Attributes of the terminal device when `tcgetattr` reads them at line 112. -/
  termios : Termios
  /-- Value of `time(NULL)` at line 124. -/
  time : Int
  deriving DecidableEq, Repr

/-- The `InitialPayload` built at lines 72–86. -/
def initialPayload (env : Env) : Proto :=
  .initialPayload
    { row := env.win.ws_row, column := env.win.ws_col,
      width := env.win.ws_xpixel, height := env.win.ws_ypixel }
    (match env.term with
     | some term => ["TERM=" ++ term]
     | none => [])

/-- Outcome of one pass through the `try` block of the connect loop. -/
inductive Attempt where
  /-- The call `client->connect()` raises `runtime_error`. -/
  | connectRaises
  /-- The call `connect()` returns and `client->writeProto(payload)` raises. -/
  | writeRaises
  /-- Both calls return. -/
  | ok
  deriving DecidableEq, Repr

/-- State of the connect loop. -/
structure Boot where
  /-- Variable `connectFailCount`. -/
  connectFailCount : Nat
  /-- Number of calls of `client->connect()` made so far. -/
  connects : Nat
  /-- Payloads that `writeProto` has accepted so far. -/
  sent : List Proto
  deriving DecidableEq, Repr

/-- The state before the connect loop: `int connectFailCount = 0`, nothing done yet. -/
def Boot.init : Boot := { connectFailCount := 0, connects := 0, sent := [] }

/-- The loop `while (true) { try { connect(); writeProto(payload); } catch ... }` of
lines 92–108, run against the outcomes of the successive attempts. The first component
is `none` when the list ends while the loop is still running, `some .next` when the
loop is left through `break`. -/
def connectLoop (payload : Proto) : List Attempt → Boot → Option Ctl × Boot
  | [], b => (none, b)
  | a :: rest, b =>
    let b1 := { b with connects := b.connects + 1 }
    match a with
    | .ok => (some .next, { b1 with sent := payload :: b1.sent })
    | _ =>
      let b2 := { b1 with connectFailCount := b1.connectFailCount + 1 }
      if b2.connectFailCount = 3 then (some (.exit 1), b2) else connectLoop payload rest b2

/-! ## One tick of the session loop (lines 131–275) -/

/-- Result of `select` and `read` on standard input. -/
inductive Stdin where
  /-- Standard input is not readable: `FD_ISSET` is false. -/
  | idle
  /-- The call `read` returned `-1` with the given `errno`. -/
  | failed (errno : Int)
  /-- The call `read` returned `s.length` and put `s` in the buffer. -/
  | read (s : Bytes)
  deriving DecidableEq, Repr

/-- What the environment decides during lines 176–196. -/
structure LocalInput where
  stdin : Stdin
  /-- Whether `writeMessage(headerString)` returns (otherwise it raises). -/
  writeHeader : Bool
  /-- Whether `writeProto(tb)` returns (otherwise it raises). -/
  writeBuffer : Bool
  /-- Value of `time(NULL)` at line 192. -/
  now : Int
  deriving DecidableEq, Repr

/-- Lines 176–196: forward local input to the server. -/
def localInput (pt : PacketType) (i : LocalInput) (w : World) : Ctl × World :=
  match i.stdin with
  | .idle => (.next, w)
  | .failed errno => (.exit errno, w)
  | .read s =>
    if 0 < s.length then
      if i.writeHeader then
        let w1 := w.emit (.writeMessage [toChar pt.TERMINAL_BUFFER])
        if i.writeBuffer then
          let w2 := w1.emit (.writeProto (.terminalBuffer s))
          let w3 := w2.now i.now
          (.next, { w3 with keepaliveTime := i.now + 5 })
        else (.raised, w1)
      else (.raised, w)
    else (.abort, w)

/-- What the transport and the environment decide in one iteration of the drain loop, given
that `hasData()` returned true. -/
inductive Inbound where
  /-- The call `readMessage` returns false. -/
  | noMessage
  /-- The call `readMessage` raises `runtime_error`. -/
  | readRaises
  /-- The call `readMessage` returns `packetTypeString`. The other fields are consulted only
  where the program gets that far: `tb` is the buffer of the message returned by
  `readProto<et::TerminalBuffer>()` (`none`: it raises), `now` the value of `time(NULL)`
  at line 216, `written` whether `writeAll` succeeds. -/
  | frame (packetTypeString : Bytes) (tb : Option Bytes) (now : Int) (written : Bool)
  deriving DecidableEq, Repr

/-- Modelled from the spec: what the macro `FATAL_FAIL` does when its argument is `-1`.
The macro comes from `Headers.hpp`, which is not among the sources at hand (the macro
defined in this file is `FAIL_FATAL`); by section 7 of the specification a failed write to
local output is fatal and aborts the process. -/
def FATAL_FAIL : Ctl := .abort

/-- Lines 203–233: validate the header just read and dispatch on the packet type. -/
def dispatch (pt : PacketType) (packetTypeString : Bytes) (tb : Option Bytes) (now : Int)
    (written : Bool) (w : World) : Ctl × World :=
  let w0 := w.emit (.readMessage packetTypeString)
  if packetTypeString.length ≠ 1 then (.abort, w0)
  else
    let packetType := charToInt (packetTypeString.headD 0)
    if packetType = pt.TERMINAL_BUFFER then
      match tb with
      | none => (.raised, w0)
      | some s =>
        let w1 := w0.emit (.readProto s)
        let w2 := w1.now now
        let w3 := { w2 with keepaliveTime := now + 1 }
        if written then (.next, w3.emit (.writeStdout s)) else (FATAL_FAIL, w3)
    else if packetType = pt.KEEP_ALIVE then
      (.next, { w0 with waitingOnKeepalive := false })
    else (.abort, w0)

/-- Lines 198–234: the loop `while (globalClient->hasData())`. The list holds one entry
for each time `hasData()` returns true; at its end `hasData()` returns false. -/
def drain (pt : PacketType) : List Inbound → World → Ctl × World
  | [], w => (.next, w)
  | .noMessage :: _, w => (.next, w)
  | .readRaises :: _, w => (.raised, w)
  | .frame packetTypeString tb now written :: rest, w =>
    match dispatch pt packetTypeString tb now written w with
    | (.next, w1) => drain pt rest w1
    | r => r

/-- What the environment decides during lines 236–248. -/
structure KeepaliveInput where
  /-- Value of `time(NULL)` in the comparison at line 236. -/
  timeCheck : Int
  /-- Value of `time(NULL)` in the assignment at line 237. -/
  timeReset : Int
  /-- Whether `closeSocket()` returns (otherwise it raises). -/
  close : Bool
  /-- Whether `writeMessage(s)` returns (otherwise it raises). -/
  write : Bool
  deriving DecidableEq, Repr

/-- Lines 236–248: the keepalive check. -/
def keepaliveCheck (pt : PacketType) (i : KeepaliveInput) (w : World) : Ctl × World :=
  let w0 := w.now i.timeCheck
  if w0.keepaliveTime < i.timeCheck then
    let w1 := w0.now i.timeReset
    let w2 := { w1 with keepaliveTime := i.timeReset + 5 }
    if w2.waitingOnKeepalive then
      if i.close then
        (.next, { w2.emit .closeSocket with waitingOnKeepalive := false })
      else (.raised, w2)
    else
      if i.write then
        (.next, { w2.emit (.writeMessage [toChar pt.KEEP_ALIVE]) with
                  waitingOnKeepalive := true })
      else (.raised, w2)
  else (.next, w0)

/-- What the environment decides during lines 250–266. -/
structure GeometryInput where
  /-- Result of `ioctl(1, TIOCGWINSZ, &tmpwin)`. -/
  tmpwin : Winsize
  /-- Whether `writeMessage(s)` returns (otherwise it raises). -/
  writeHeader : Bool
  /-- Whether `writeProto(ti)` returns (otherwise it raises). -/
  writeInfo : Bool
  deriving DecidableEq, Repr

/-- Lines 250–266: the geometry check. -/
def geometryCheck (pt : PacketType) (i : GeometryInput) (w : World) : Ctl × World :=
  if w.win.ws_row ≠ i.tmpwin.ws_row ∨ w.win.ws_col ≠ i.tmpwin.ws_col ∨
      w.win.ws_xpixel ≠ i.tmpwin.ws_xpixel ∨ w.win.ws_ypixel ≠ i.tmpwin.ws_ypixel then
    let w1 := { w with win := i.tmpwin }
    let ti : TerminalInfo :=
      { row := w1.win.ws_row, column := w1.win.ws_col,
        width := w1.win.ws_xpixel, height := w1.win.ws_ypixel }
    if i.writeHeader then
      let w2 := w1.emit (.writeMessage [toChar pt.TERMINAL_INFO])
      if i.writeInfo then (.next, w2.emit (.writeProto (.terminalInfo ti)))
      else (.raised, w2)
    else (.raised, w1)
  else (.next, w)

/-- Everything the environment decides during one tick. -/
structure TickInput where
  input : LocalInput
  inbound : List Inbound
  keepalive : KeepaliveInput
  geometry : GeometryInput
  deriving DecidableEq, Repr

/-- The `try` block of lines 174–267. -/
def tryBlock (pt : PacketType) (i : TickInput) (w : World) : Ctl × World :=
  match localInput pt i.input w with
  | (.next, w1) =>
    match drain pt i.inbound w1 with
    | (.next, w2) =>
      match keepaliveCheck pt i.keepalive w2 with
      | (.next, w3) => geometryCheck pt i.geometry w3
      | r => r
    | r => r
  | r => r

/-- One iteration of `while (run)`: the `try` block and its `catch` handler, which sets
`run = false`. -/
def tick (pt : PacketType) (i : TickInput) (w : World) : Ctl × World :=
  match tryBlock pt i w with
  | (.raised, w1) => (.next, { w1 with run := false })
  | r => r

/-- The loop `while (run)` of lines 131–275, run against the inputs of the successive
ticks. The first component is `none` when the list ends while the loop is still running,
`some .next` when the loop is left because `run` is false. -/
def sessionLoop (pt : PacketType) : List TickInput → World → Option Ctl × World
  | [], w => (if w.run then none else some .next, w)
  | i :: rest, w =>
    if w.run then
      match tick pt i w with
      | (.next, w1) => sessionLoop pt rest w1
      | (c, w1) => (some c, w1)
    else (some .next, w)

/-! ## The whole of `main` -/

/-- Lines 111–125: save the terminal attributes, enter raw mode, initialise the loop
variables. `cfmakeraw` is the C library function of that name. -/
def startSession (cfmakeraw : Termios → Termios) (env : Env) : World :=
  let terminal_local := env.termios
  { win := env.win
    terminal_backup := terminal_local
    run := true
    keepaliveTime := env.time + 5
    waitingOnKeepalive := false
    termios := cfmakeraw terminal_local
    clock := env.time
    clockOk := true
    trace := [] }

/-- Lines 277–282: restore the terminal attributes and return 0. -/
def cleanup (w : World) : World :=
  { w with termios := w.terminal_backup }

/-- The function `main` from line 72 on. The result tells how the process ended
(`some .next`: `main` returned 0; `none`: it is still running when the inputs end), the
state of the connect loop and, if the session was started, its final state. -/
def main (pt : PacketType) (cfmakeraw : Termios → Termios) (env : Env)
    (attempts : List Attempt) (ticks : List TickInput) : Option Ctl × Boot × Option World :=
  match connectLoop (initialPayload env) attempts Boot.init with
  | (some .next, b) =>
    match sessionLoop pt ticks (startSession cfmakeraw env) with
    | (some .next, w) => (some .next, b, some (cleanup w))
    | (c, w) => (c, b, some w)
  | (c, b) => (c, b, none)

/-! ## Frames on the wire -/

/-- The two calls the local-input path makes on the transport for the input `s` (lines
184–191), in the order they are made: the one-byte header, then the payload. -/
def encodeTerminalBuffer (pt : PacketType) (s : Bytes) : List Event :=
  [.writeMessage [toChar pt.TERMINAL_BUFFER], .writeProto (.terminalBuffer s)]

/-- Modelled from the spec: the transport collaborator (`ClientConnection`, not among the
sources at hand) carries length-delimited units (section 6: `sendMessage` and
`sendPayload` each transmit one unit, `receiveMessage` and `receivePayload` each read one
unit). A header written with `writeMessage` followed by a `TerminalBuffer` written with
`writeProto` reaches the reading side as one inbound frame: `readMessage` returns the
header and `readProto<et::TerminalBuffer>()` returns a message with the same buffer. The
reading side's clock value and the success of its `writeAll` are its own. -/
def delivered (now : Int) (written : Bool) : List Event → List Inbound
  | [.writeMessage h, .writeProto (.terminalBuffer s)] => [.frame h (some s) now written]
  | _ => []

/-! ## Liveness events -/

/-- Whether an entry of the inbound list stands for a frame that was read. -/
def Inbound.isFrame : Inbound → Bool
  | .frame _ _ _ _ => true
  | _ => false

/-- Whether an entry of the trace is a liveness event: a KeepAlive sent, or the transport
closed. -/
def isLiveness (pt : PacketType) (e : Int × Event) : Bool :=
  decide (e.2 = .writeMessage [toChar pt.KEEP_ALIVE]) || decide (e.2 = .closeSocket)

/-- The liveness events of a state with their clock values, oldest first. -/
def livenessEvents (pt : PacketType) (w : World) : List (Int × Event) :=
  (w.trace.filter (isLiveness pt)).reverse

/-- Two consecutive liveness events, `a` before `b`: of different kinds and at least 5
seconds apart. -/
def Spaced (a b : Int × Event) : Prop := a.2 ≠ b.2 ∧ a.1 + 5 ≤ b.1

/-- The invariant behind the alternation of liveness events when no frame comes in, on
the trace (most recent first), the flag, the clock and the deadline of a state. -/
def Alternating (pt : PacketType) (tr : List (Int × Event)) (waiting : Bool) (clock : Int)
    (deadline : Int) : Prop :=
  List.Chain' (flip Spaced) (tr.filter (isLiveness pt)) ∧
  (∀ e ∈ (tr.filter (isLiveness pt)).getLast?, e.2 = .writeMessage [toChar pt.KEEP_ALIVE]) ∧
  (∀ e ∈ (tr.filter (isLiveness pt)).head?,
    e.1 + 5 ≤ deadline ∧ e.1 ≤ clock ∧
    (e.2 = .writeMessage [toChar pt.KEEP_ALIVE] ↔ waiting = true)) ∧
  (tr.filter (isLiveness pt) = [] → waiting = false)

/-- The invariant `Alternating` at a state. -/
def AlternatingAt (pt : PacketType) (w : World) : Prop :=
  Alternating pt w.trace w.waitingOnKeepalive w.clock w.keepaliveTime

/-- The keepalive that is outstanding according to a trace (most recent first): the clock
value at which the last KeepAlive was sent, and whether a `TerminalBuffer` has been read
since then. -/
def pendingKeepalive (pt : PacketType) : List (Int × Event) → Option (Int × Bool)
  | [] => none
  | (t, e) :: rest =>
    if e = .writeMessage [toChar pt.KEEP_ALIVE] then some (t, false)
    else
      match e with
      | .readProto _ => (pendingKeepalive pt rest).map (fun p => (p.1, true))
      | _ => pendingKeepalive pt rest

/-- Grace window on a trace (most recent first): every close of the transport comes after
a KeepAlive was sent, at least `d` seconds after the last one, and at least `dq` seconds
after it when no `TerminalBuffer` was read in between. -/
def GraceWindow (pt : PacketType) (d dq : Int) (tr : List (Int × Event)) : Prop :=
  ∀ (later : List (Int × Event)) (t : Int) (earlier : List (Int × Event)),
    tr = later ++ (t, Event.closeSocket) :: earlier →
    ∃ p, pendingKeepalive pt earlier = some p ∧ p.1 + d ≤ t ∧ (p.2 = false → p.1 + dq ≤ t)

/-- The invariant behind the grace window, on the trace, the flag, the clock and the
deadline of a state: while a keepalive is outstanding, the deadline is at least one second
after it was sent, and at least five if no `TerminalBuffer` was read since. -/
def Graced (pt : PacketType) (tr : List (Int × Event)) (waiting : Bool) (clock : Int)
    (deadline : Int) : Prop :=
  GraceWindow pt 2 5 tr ∧
  (waiting = true → ∃ p, pendingKeepalive pt tr = some p ∧ p.1 ≤ clock ∧
    p.1 + 1 ≤ deadline ∧ (p.2 = false → p.1 + 5 ≤ deadline))

/-- The invariant `Graced` at a state. -/
def GracedAt (pt : PacketType) (w : World) : Prop :=
  Graced pt w.trace w.waitingOnKeepalive w.clock w.keepaliveTime

/-- A step from `w` to `v` keeps the clock record honest and carries the property `P`
along: if the clock is in order at `v`, it was in order at `w`, and `P` at `w` gives `P`
at `v`. -/
def Preserves (P : World → Prop) (w v : World) : Prop :=
  v.clockOk = true → w.clockOk = true ∧ (P w → P v)

/-! ## Concrete inputs used to exercise the theorems -/

/-- A valid numbering of the packet types. -/
def pt0 : PacketType := { TERMINAL_BUFFER := 0, KEEP_ALIVE := 1, TERMINAL_INFO := 2 }

/-- A terminal in cooked mode, 24 rows by 80 columns, at time 100. -/
def env0 : Env :=
  { win := { ws_row := 24, ws_col := 80, ws_xpixel := 0, ws_ypixel := 0 }
    term := some "xterm"
    termios := { c_iflag := 0x6d02, c_oflag := 5, c_cflag := 0xbf, c_lflag := 0x8a3b,
                 c_line := 0, c_cc := [3, 28, 127, 21, 4, 0, 1], c_ispeed := 15,
                 c_ospeed := 15 }
    time := 100 }

/-- A stand-in for `cfmakeraw`: clear the input, output and local mode flags. -/
def raw0 (t : Termios) : Termios := { t with c_iflag := 0, c_oflag := 0, c_lflag := 0 }

/-- The session state at loop entry for `env0`: deadline 105, no keepalive outstanding. -/
def w0 : World := startSession raw0 env0

/-- A tick in which nothing happens: no local input, no inbound data, clock value `t`,
geometry 24 by 80. -/
def quiet (t : Int) : TickInput :=
  { input := { stdin := .idle, writeHeader := true, writeBuffer := true, now := t }
    inbound := []
    keepalive := { timeCheck := t, timeReset := t, close := true, write := true }
    geometry := { tmpwin := { ws_row := 24, ws_col := 80, ws_xpixel := 0, ws_ypixel := 0 },
                  writeHeader := true, writeInfo := true } }

/-- The state `w0` with a keepalive outstanding. -/
def w0waiting : World := { w0 with waitingOnKeepalive := true }

/-! ## Keepalive check -/

/-- C1: when the keepalive check fires it sets `keepaliveTime` to the clock value plus 5
and leaves `run` alone; then, if `waitingOnKeepalive` was set, it closes the transport
once, clears the flag and sends nothing, and if the flag was clear, it sends the one-byte
message `KEEP_ALIVE` and nothing else, sets the flag and does not close the transport; in
both cases control falls through to the rest of the tick. (The transport call is taken to
return; the clock value is the one returned by `time(NULL)`, the deadline using the second
of the two calls.) When the check does not fire, deadline, flag, `run` and the record of
transport calls are unchanged. -/
theorem keepaliveCheck_expiry (pt : PacketType) (i : KeepaliveInput) (w : World) :
    (w.keepaliveTime < i.timeCheck →
      (keepaliveCheck pt i w).2.keepaliveTime = i.timeReset + 5 ∧
      (keepaliveCheck pt i w).2.run = w.run ∧
      (w.waitingOnKeepalive = true → i.close = true →
        (keepaliveCheck pt i w).1 = .next ∧
        (keepaliveCheck pt i w).2.waitingOnKeepalive = false ∧
        (keepaliveCheck pt i w).2.trace = (i.timeReset, .closeSocket) :: w.trace) ∧
      (w.waitingOnKeepalive = false → i.write = true →
        (keepaliveCheck pt i w).1 = .next ∧
        (keepaliveCheck pt i w).2.waitingOnKeepalive = true ∧
        (keepaliveCheck pt i w).2.trace =
          (i.timeReset, .writeMessage [toChar pt.KEEP_ALIVE]) :: w.trace)) ∧
    (¬ w.keepaliveTime < i.timeCheck →
      (keepaliveCheck pt i w).1 = .next ∧
      (keepaliveCheck pt i w).2.keepaliveTime = w.keepaliveTime ∧
      (keepaliveCheck pt i w).2.waitingOnKeepalive = w.waitingOnKeepalive ∧
      (keepaliveCheck pt i w).2.run = w.run ∧
      (keepaliveCheck pt i w).2.trace = w.trace) := by
  refine ⟨fun hfire => ?_, fun hno => ?_⟩
  · cases hw : w.waitingOnKeepalive <;> cases hc : i.close <;> cases hwr : i.write <;>
      simp [keepaliveCheck, World.now, World.emit, hfire, hw, hc, hwr]
  · simp [keepaliveCheck, World.now, hno]

/-- Witness for C1 at the state `w0waiting` (deadline 105, keepalive outstanding) and
clock value 106: the check closes the transport and the deadline becomes 111. -/
theorem keepaliveCheck_expiry_witness :
    w0waiting.keepaliveTime < 106 ∧
    (keepaliveCheck pt0 { timeCheck := 106, timeReset := 106, close := true, write := true }
      w0waiting).2.keepaliveTime = 106 + 5 ∧
    (keepaliveCheck pt0 { timeCheck := 106, timeReset := 106, close := true, write := true }
      w0waiting).2.trace = (106, .closeSocket) :: w0waiting.trace :=
  have h := (keepaliveCheck_expiry pt0
    { timeCheck := 106, timeReset := 106, close := true, write := true } w0waiting).1
    (by decide)
  ⟨by decide, h.1, (h.2.2.1 rfl rfl).2.2⟩

/-- C4 (as stated, refuted): at the state `w0` the deadline is 105; a check at clock value
105 satisfies `now >= nextDeadline`, yet it makes no transport call, leaves the deadline at
105 and leaves the flag alone, so after the check the deadline is not strictly greater than
the clock value. -/
theorem keepaliveCheck_at_deadline_counterexample :
    w0.keepaliveTime ≤ 105 ∧
    (keepaliveCheck pt0 { timeCheck := 105, timeReset := 105, close := true, write := true }
      w0).2.trace = w0.trace ∧
    (keepaliveCheck pt0 { timeCheck := 105, timeReset := 105, close := true, write := true }
      w0).2.waitingOnKeepalive = w0.waitingOnKeepalive ∧
    (keepaliveCheck pt0 { timeCheck := 105, timeReset := 105, close := true, write := true }
      w0).2.keepaliveTime = 105 ∧
    ¬ (105 < (keepaliveCheck pt0
      { timeCheck := 105, timeReset := 105, close := true, write := true }
      w0).2.keepaliveTime) := by
  decide

/-- C4 (amended): the keepalive check makes a transport call (sends a KeepAlive or closes
the transport) if and only if the clock value is strictly greater than the stored deadline.
When it fires the new deadline is the clock value plus 5, strictly greater than the clock
value; when it does not fire the deadline is unchanged and not smaller than the clock
value. -/
theorem keepaliveCheck_fires_iff (pt : PacketType) (i : KeepaliveInput) (w : World)
    (hclose : i.close = true) (hwrite : i.write = true) :
    ((keepaliveCheck pt i w).2.trace ≠ w.trace ↔ w.keepaliveTime < i.timeCheck) ∧
    (w.keepaliveTime < i.timeCheck →
      (keepaliveCheck pt i w).2.keepaliveTime = i.timeReset + 5 ∧
      i.timeReset < (keepaliveCheck pt i w).2.keepaliveTime) ∧
    (¬ w.keepaliveTime < i.timeCheck →
      (keepaliveCheck pt i w).2.keepaliveTime = w.keepaliveTime ∧
      i.timeCheck ≤ (keepaliveCheck pt i w).2.keepaliveTime) := by
  by_cases hfire : w.keepaliveTime < i.timeCheck
  · cases hw : w.waitingOnKeepalive <;>
      simp [keepaliveCheck, World.now, World.emit, hfire, hclose, hwrite, hw]
  · have hle : i.timeCheck ≤ w.keepaliveTime := not_lt.mp hfire
    simp [keepaliveCheck, World.now, hfire, hle]

/-- Witness for C4 (amended) at the state `w0` (deadline 105) and clock value 106: the
check fires and the deadline becomes 111. -/
theorem keepaliveCheck_fires_iff_witness :
    w0.keepaliveTime < 106 ∧
    (keepaliveCheck pt0 { timeCheck := 106, timeReset := 106, close := true, write := true }
      w0).2.trace ≠ w0.trace ∧
    (keepaliveCheck pt0 { timeCheck := 106, timeReset := 106, close := true, write := true }
      w0).2.keepaliveTime = 106 + 5 :=
  have h := keepaliveCheck_fires_iff pt0
    { timeCheck := 106, timeReset := 106, close := true, write := true } w0 rfl rfl
  ⟨by decide, h.1.mpr (by decide), (h.2.1 (by decide)).1⟩

/-! ## Inbound drain -/

/-- Promoting a `char` gives a value of the enumeration exactly when the `char` is the
conversion of that value. -/
theorem charToInt_eq_iff (c : Fin 256) (v : Int) (h0 : 0 ≤ v) (h1 : v < 128) :
    charToInt c = v ↔ c = toChar v := by
  unfold charToInt toChar
  constructor
  · intro h
    apply Fin.ext
    simp only
    split at h <;> omega
  · intro h
    have h2 : c.val = (v % 256).toNat := by rw [h]
    have := c.isLt
    split <;> omega

/-- A string of length one is the singleton of its first character. -/
theorem bytes_length_one (m : Bytes) (h : m.length = 1) : m = [m.headD 0] := by
  match m, h with
  | [c], _ => rfl

/-- The header `[toChar TERMINAL_BUFFER]` is dispatched to the first case. -/
theorem dispatch_terminalBuffer (pt : PacketType) (hv : pt.Valid) (tb : Option Bytes)
    (now : Int) (written : Bool) (w : World) :
    dispatch pt [toChar pt.TERMINAL_BUFFER] tb now written w =
      match tb with
      | none => (.raised, w.emit (.readMessage [toChar pt.TERMINAL_BUFFER]))
      | some s =>
        if written then
          (.next, ({ (((w.emit (.readMessage [toChar pt.TERMINAL_BUFFER])).emit
            (.readProto s)).now now) with keepaliveTime := now + 1 }).emit (.writeStdout s))
        else
          (FATAL_FAIL, { (((w.emit (.readMessage [toChar pt.TERMINAL_BUFFER])).emit
            (.readProto s)).now now) with keepaliveTime := now + 1 }) := by
  have h : charToInt (toChar pt.TERMINAL_BUFFER) = pt.TERMINAL_BUFFER :=
    (charToInt_eq_iff _ _ hv.1.1 hv.1.2).mpr rfl
  cases tb <;> simp [dispatch, h]

/-- The header `[toChar KEEP_ALIVE]` is dispatched to the second case. -/
theorem dispatch_keepAlive (pt : PacketType) (hv : pt.Valid) (tb : Option Bytes)
    (now : Int) (written : Bool) (w : World) :
    dispatch pt [toChar pt.KEEP_ALIVE] tb now written w =
      (.next, { w.emit (.readMessage [toChar pt.KEEP_ALIVE]) with
                waitingOnKeepalive := false }) := by
  have h : charToInt (toChar pt.KEEP_ALIVE) = pt.KEEP_ALIVE :=
    (charToInt_eq_iff _ _ hv.2.1.1 hv.2.1.2).mpr rfl
  have hne : ¬ pt.KEEP_ALIVE = pt.TERMINAL_BUFFER := fun e => hv.2.2.2.1 e.symm
  simp [dispatch, h, hne]

/-- Any other header aborts the process right after it was read. -/
theorem dispatch_invalid (pt : PacketType) (hv : pt.Valid) (m : Bytes)
    (hm : ¬ (m = [toChar pt.TERMINAL_BUFFER] ∨ m = [toChar pt.KEEP_ALIVE]))
    (tb : Option Bytes) (now : Int) (written : Bool) (w : World) :
    dispatch pt m tb now written w = (.abort, w.emit (.readMessage m)) := by
  by_cases hlen : m.length = 1
  · have hm1 := bytes_length_one m hlen
    have h1 : ¬ charToInt (m.headD 0) = pt.TERMINAL_BUFFER := by
      intro h
      rw [charToInt_eq_iff _ _ hv.1.1 hv.1.2] at h
      exact hm (Or.inl (by rw [hm1, h]))
    have h2 : ¬ charToInt (m.headD 0) = pt.KEEP_ALIVE := by
      intro h
      rw [charToInt_eq_iff _ _ hv.2.1.1 hv.2.1.2] at h
      exact hm (Or.inr (by rw [hm1, h]))
    simp only [dispatch, hlen, h1, h2, ne_eq, not_true_eq_false, if_false]
  · simp [dispatch, hlen]

/-- C5: a well-formed inbound frame handled by the drain loop. (a) A `TerminalBuffer` frame
with payload `s` writes exactly `s` to local output, sets `keepaliveTime` to the clock value
plus 1 whatever it was, and leaves `waitingOnKeepalive` alone. (b) A `KeepAlive` frame
clears `waitingOnKeepalive`, writes nothing, reads no payload and leaves `keepaliveTime`
alone. In both cases the only transport calls are the reads: nothing is sent and the
transport is not closed; the loop then goes on with the rest of the inbound data. -/
theorem drain_dispatch_effects (pt : PacketType) (hv : pt.Valid) (s : Bytes) (now : Int)
    (rest : List Inbound) (w : World) :
    (∃ w1, drain pt (.frame [toChar pt.TERMINAL_BUFFER] (some s) now true :: rest) w =
        drain pt rest w1 ∧
      w1.trace = (now, .writeStdout s) :: (w.clock, .readProto s) ::
        (w.clock, .readMessage [toChar pt.TERMINAL_BUFFER]) :: w.trace ∧
      w1.keepaliveTime = now + 1 ∧
      w1.waitingOnKeepalive = w.waitingOnKeepalive ∧
      w1.run = w.run ∧ w1.win = w.win) ∧
    (∀ (tb : Option Bytes) (t : Int) (written : Bool),
      ∃ w1, drain pt (.frame [toChar pt.KEEP_ALIVE] tb t written :: rest) w =
        drain pt rest w1 ∧
      w1.trace = (w.clock, .readMessage [toChar pt.KEEP_ALIVE]) :: w.trace ∧
      w1.waitingOnKeepalive = false ∧
      w1.keepaliveTime = w.keepaliveTime ∧
      w1.clock = w.clock ∧
      w1.run = w.run ∧ w1.win = w.win) := by
  constructor
  · refine ⟨({ (((w.emit (.readMessage [toChar pt.TERMINAL_BUFFER])).emit (.readProto s)).now now)
      with keepaliveTime := now + 1 }).emit (.writeStdout s), ?_, ?_⟩
    · rw [drain, dispatch_terminalBuffer pt hv]
      simp only [if_true]
    · simp [World.emit, World.now]
  · intro tb t written
    refine ⟨{ w.emit (.readMessage [toChar pt.KEEP_ALIVE]) with
      waitingOnKeepalive := false }, ?_, ?_⟩
    · rw [drain, dispatch_keepAlive pt hv]
    · simp [World.emit]

/-- Witness for C5: at the state `w0` and clock value 101, a `TerminalBuffer` frame carrying
the two bytes `hi` moves the deadline to 102. -/
theorem drain_dispatch_effects_witness :
    pt0.Valid ∧
    ∃ w1, drain pt0 [.frame [toChar pt0.TERMINAL_BUFFER] (some [104, 105]) 101 true] w0 =
        drain pt0 [] w1 ∧
      w1.trace = [(101, .writeStdout [104, 105]), (100, .readProto [104, 105]),
        (100, .readMessage [toChar pt0.TERMINAL_BUFFER])] ∧
      w1.keepaliveTime = 101 + 1 :=
  ⟨by decide,
    match (drain_dispatch_effects pt0 (by decide) [104, 105] 101 [] w0).1 with
    | ⟨w1, h1, h2, h3, _⟩ => ⟨w1, h1, h2, h3⟩⟩

/-- C6: header validation in the drain loop. With a readable payload and a working local
output, a header `m` is dispatched without a fatal error if and only if it is the single
byte `TERMINAL_BUFFER` or the single byte `KEEP_ALIVE`. For every other `m` (empty, two bytes
or more, or one byte of another value such as `0xFF` or `TERMINAL_INFO`) the process is
aborted right after `m` was read: the rest of the inbound data is not looked at, nothing
is written to local output and `keepaliveTime` and `waitingOnKeepalive` keep their values. -/
theorem drain_header_validation (pt : PacketType) (hv : pt.Valid) (m : Bytes) (s : Bytes)
    (tb : Option Bytes) (now : Int) (written : Bool) (rest : List Inbound) (w : World) :
    ((dispatch pt m (some s) now true w).1 = .next ↔
      (m = [toChar pt.TERMINAL_BUFFER] ∨ m = [toChar pt.KEEP_ALIVE])) ∧
    (¬ (m = [toChar pt.TERMINAL_BUFFER] ∨ m = [toChar pt.KEEP_ALIVE]) →
      ∃ w1, drain pt (.frame m tb now written :: rest) w = (.abort, w1) ∧
        w1.trace = (w.clock, .readMessage m) :: w.trace ∧
        w1.keepaliveTime = w.keepaliveTime ∧
        w1.waitingOnKeepalive = w.waitingOnKeepalive ∧
        w1.clock = w.clock) ∧
    (m.length ≠ 1 → (dispatch pt m tb now written w).1 = .abort) ∧
    (dispatch pt [255] tb now written w).1 = .abort ∧
    (dispatch pt [toChar pt.TERMINAL_INFO] tb now written w).1 = .abort := by
  have hTB : charToInt (toChar pt.TERMINAL_BUFFER) = pt.TERMINAL_BUFFER :=
    (charToInt_eq_iff _ _ hv.1.1 hv.1.2).mpr rfl
  have hKA : charToInt (toChar pt.KEEP_ALIVE) = pt.KEEP_ALIVE :=
    (charToInt_eq_iff _ _ hv.2.1.1 hv.2.1.2).mpr rfl
  have hTI : charToInt (toChar pt.TERMINAL_INFO) = pt.TERMINAL_INFO :=
    (charToInt_eq_iff _ _ hv.2.2.1.1 hv.2.2.1.2).mpr rfl
  have hFF : charToInt 255 = -1 := by decide
  refine ⟨⟨fun h => ?_, fun h => ?_⟩, fun hm => ?_, fun hlen => ?_, ?_, ?_⟩
  · by_contra hm
    rw [dispatch_invalid pt hv m hm] at h
    simp at h
  · rcases h with h | h
    · rw [h, dispatch_terminalBuffer pt hv]
      simp
    · rw [h, dispatch_keepAlive pt hv]
  · refine ⟨w.emit (.readMessage m), ?_, ?_⟩
    · rw [drain, dispatch_invalid pt hv m hm]
    · simp [World.emit]
  · rw [dispatch_invalid pt hv m]
    rintro (h | h) <;> simp [h] at hlen
  · rw [dispatch_invalid pt hv]
    rintro (h | h)
    · have h1 := congrArg (fun l => charToInt (l.headD 0)) h
      simp only [List.headD_cons, hFF, hTB] at h1
      have := hv.1.1
      omega
    · have h1 := congrArg (fun l => charToInt (l.headD 0)) h
      simp only [List.headD_cons, hFF, hKA] at h1
      have := hv.2.1.1
      omega
  · rw [dispatch_invalid pt hv]
    rintro (h | h)
    · have h1 := congrArg (fun l => charToInt (l.headD 0)) h
      simp only [List.headD_cons, hTI, hTB] at h1
      exact hv.2.2.2.2.1 h1.symm
    · have h1 := congrArg (fun l => charToInt (l.headD 0)) h
      simp only [List.headD_cons, hTI, hKA] at h1
      exact hv.2.2.2.2.2 h1.symm

/-- Witness for C6: with the numbering `pt0` the two-byte header `[0, 0]` aborts the drain
at the state `w0` and the frame queued behind it is not processed. -/
theorem drain_header_validation_witness :
    pt0.Valid ∧
    ¬ (([0, 0] : Bytes) = [toChar pt0.TERMINAL_BUFFER] ∨
       ([0, 0] : Bytes) = [toChar pt0.KEEP_ALIVE]) ∧
    ∃ w1, drain pt0 [.frame [0, 0] (some [104]) 101 true,
        .frame [toChar pt0.KEEP_ALIVE] none 101 true] w0 = (.abort, w1) ∧
      w1.trace = (w0.clock, .readMessage [0, 0]) :: w0.trace ∧
      w1.keepaliveTime = w0.keepaliveTime ∧
      w1.waitingOnKeepalive = w0.waitingOnKeepalive ∧
      w1.clock = w0.clock :=
  ⟨by decide, by decide,
    (drain_header_validation pt0 (by decide) [0, 0] [] (some [104]) 101 true
      [.frame [toChar pt0.KEEP_ALIVE] none 101 true] w0).2.1 (by decide)⟩

/-- C7: round trip of a `TerminalBuffer` frame. For every byte string `s` the two messages of
the encoding (the one-byte header `TERMINAL_BUFFER`, then the payload with buffer `s`), once
delivered to the drain loop, are decoded to a `TerminalBuffer` whose buffer is `s`, exactly
`s` is written to local output, and the drain ends without an error. The local-input path
produces exactly this encoding for every chunk `s` it reads (a chunk has at least one
byte). -/
theorem terminalBuffer_roundtrip (pt : PacketType) (hv : pt.Valid) (s : Bytes) (now : Int)
    (w : World) :
    (∃ w1, drain pt (delivered now true (encodeTerminalBuffer pt s)) w = (.next, w1) ∧
      w1.trace = (now, .writeStdout s) :: (w.clock, .readProto s) ::
        (w.clock, .readMessage [toChar pt.TERMINAL_BUFFER]) :: w.trace) ∧
    (0 < s.length → ∀ (t : Int) (v : World),
      (localInput pt { stdin := .read s, writeHeader := true, writeBuffer := true, now := t }
        v).2.trace.map Prod.snd =
        (encodeTerminalBuffer pt s).reverse ++ v.trace.map Prod.snd) := by
  constructor
  · refine ⟨({ (((w.emit (.readMessage [toChar pt.TERMINAL_BUFFER])).emit (.readProto s)).now now)
      with keepaliveTime := now + 1 }).emit (.writeStdout s), ?_, ?_⟩
    · rw [encodeTerminalBuffer, delivered, drain, dispatch_terminalBuffer pt hv]
      simp only [if_true, drain]
    · simp [World.emit, World.now]
  · intro hs t v
    simp [localInput, hs, World.emit, World.now, encodeTerminalBuffer]

/-- Witness for C7 with the empty string and with a string that contains a NUL byte. -/
theorem terminalBuffer_roundtrip_witness :
    pt0.Valid ∧
    (∃ w1, drain pt0 (delivered 101 true (encodeTerminalBuffer pt0 [])) w0 = (.next, w1) ∧
      w1.trace = (101, .writeStdout []) :: (w0.clock, .readProto []) ::
        (w0.clock, .readMessage [toChar pt0.TERMINAL_BUFFER]) :: w0.trace) ∧
    (∃ w1, drain pt0 (delivered 101 true (encodeTerminalBuffer pt0 [97, 0, 98])) w0 =
        (.next, w1) ∧
      w1.trace = (101, .writeStdout [97, 0, 98]) :: (w0.clock, .readProto [97, 0, 98]) ::
        (w0.clock, .readMessage [toChar pt0.TERMINAL_BUFFER]) :: w0.trace) :=
  ⟨by decide, (terminalBuffer_roundtrip pt0 (by decide) [] 101 w0).1,
    (terminalBuffer_roundtrip pt0 (by decide) [97, 0, 98] 101 w0).1⟩

/-! ## Geometry check -/

/-- C8: resize detection. The geometry check sends a `TerminalInfo` frame (the one-byte
header `TERMINAL_INFO`, then a payload with the rows, columns, width and height of the
queried geometry; the transport is taken to accept both) if the queried geometry differs
from the last-known one in at least one of the four fields, and sends nothing otherwise.
Afterwards the last-known geometry is the queried one in both cases, so a second check
with the same geometry changes nothing and sends nothing. The last-known geometry at loop
entry is the snapshot that went into the handshake payload. -/
theorem geometryCheck_resize (pt : PacketType) (i : GeometryInput) (w : World) :
    (geometryCheck pt i w).2.win = i.tmpwin ∧
    ((w.win.ws_row ≠ i.tmpwin.ws_row ∨ w.win.ws_col ≠ i.tmpwin.ws_col ∨
        w.win.ws_xpixel ≠ i.tmpwin.ws_xpixel ∨ w.win.ws_ypixel ≠ i.tmpwin.ws_ypixel) →
      i.writeHeader = true → i.writeInfo = true →
      (geometryCheck pt i w).1 = .next ∧
      (geometryCheck pt i w).2.trace =
        (w.clock, .writeProto (.terminalInfo
          { row := i.tmpwin.ws_row, column := i.tmpwin.ws_col,
            width := i.tmpwin.ws_xpixel, height := i.tmpwin.ws_ypixel })) ::
        (w.clock, .writeMessage [toChar pt.TERMINAL_INFO]) :: w.trace) ∧
    (¬ (w.win.ws_row ≠ i.tmpwin.ws_row ∨ w.win.ws_col ≠ i.tmpwin.ws_col ∨
        w.win.ws_xpixel ≠ i.tmpwin.ws_xpixel ∨ w.win.ws_ypixel ≠ i.tmpwin.ws_ypixel) →
      geometryCheck pt i w = (.next, w)) ∧
    (∀ j : GeometryInput, j.tmpwin = i.tmpwin →
      geometryCheck pt j (geometryCheck pt i w).2 = (.next, (geometryCheck pt i w).2)) ∧
    (∀ (cfmakeraw : Termios → Termios) (env : Env),
      (startSession cfmakeraw env).win = env.win ∧
      ∃ vars, initialPayload env = .initialPayload
        { row := env.win.ws_row, column := env.win.ws_col,
          width := env.win.ws_xpixel, height := env.win.ws_ypixel } vars) := by
  have hwin : (geometryCheck pt i w).2.win = i.tmpwin := by
    by_cases hd : w.win.ws_row ≠ i.tmpwin.ws_row ∨ w.win.ws_col ≠ i.tmpwin.ws_col ∨
        w.win.ws_xpixel ≠ i.tmpwin.ws_xpixel ∨ w.win.ws_ypixel ≠ i.tmpwin.ws_ypixel
    · cases hh : i.writeHeader <;> cases hi : i.writeInfo <;>
        simp [geometryCheck, hd, hh, hi, World.emit]
    · simp only [geometryCheck, hd, if_false]
      cases hw : w.win
      cases ht : i.tmpwin
      simp only [hw, ht, not_or, not_not] at hd
      simp [hd]
  refine ⟨hwin, fun hd hh hi => ?_, fun hd => ?_, fun j hj => ?_, fun cfmakeraw env => ?_⟩
  · simp [geometryCheck, hd, hh, hi, World.emit]
  · simp [geometryCheck, hd]
  · have hsame : ¬ ((geometryCheck pt i w).2.win.ws_row ≠ j.tmpwin.ws_row ∨
        (geometryCheck pt i w).2.win.ws_col ≠ j.tmpwin.ws_col ∨
        (geometryCheck pt i w).2.win.ws_xpixel ≠ j.tmpwin.ws_xpixel ∨
        (geometryCheck pt i w).2.win.ws_ypixel ≠ j.tmpwin.ws_ypixel) := by
      rw [hwin, hj]
      simp
    generalize (geometryCheck pt i w).2 = v at hsame
    simp only [geometryCheck, hsame, if_false]
  · refine ⟨rfl, ?_⟩
    exact ⟨_, rfl⟩

/-- Witness for C8: the geometry changes from 24 by 80 to 30 by 100 at the state `w0`. -/
theorem geometryCheck_resize_witness :
    (geometryCheck pt0
      { tmpwin := { ws_row := 30, ws_col := 100, ws_xpixel := 0, ws_ypixel := 0 },
        writeHeader := true, writeInfo := true } w0).2.trace =
      [(100, .writeProto (.terminalInfo { row := 30, column := 100, width := 0, height := 0 })),
       (100, .writeMessage [toChar pt0.TERMINAL_INFO])] :=
  ((geometryCheck_resize pt0
    { tmpwin := { ws_row := 30, ws_col := 100, ws_xpixel := 0, ws_ypixel := 0 },
      writeHeader := true, writeInfo := true } w0).2.1 (by decide) rfl rfl).2

/-! ## Bootstrap -/

/-- While no attempt has succeeded, the number of calls of `connect()` equals the failure
count, and the loop stops when that count reaches 3. -/
theorem connectLoop_connects_le (payload : Proto) (attempts : List Attempt) (b : Boot)
    (hc : b.connects = b.connectFailCount) (h3 : b.connectFailCount < 3) :
    (connectLoop payload attempts b).2.connects ≤ 3 ∧
    (connectLoop payload attempts b).2.connects ≤ b.connects + attempts.length := by
  induction attempts generalizing b with
  | nil => simp [connectLoop]; omega
  | cons a rest ih =>
    cases a
    case ok => simp [connectLoop]; omega
    all_goals
      simp only [connectLoop]
      split
      · simp; omega
      · rename_i hne
        have := ih ⟨b.connectFailCount + 1, b.connects + 1, b.sent⟩ (by simp [hc])
          (by simp at hne ⊢; omega)
        simp at this ⊢
        omega

/-- When the connect loop is left through `break`, the session is started. -/
theorem main_session_started (pt : PacketType) (cfmakeraw : Termios → Termios) (env : Env)
    (attempts : List Attempt) (ticks : List TickInput) (b : Boot)
    (h : connectLoop (initialPayload env) attempts Boot.init = (some .next, b)) :
    ∃ c w, main pt cfmakeraw env attempts ticks = (c, b, some w) := by
  simp only [main, h]
  split
  · exact ⟨_, _, rfl⟩
  · exact ⟨_, _, rfl⟩

/-- C9: bounded bootstrap retry. If the first successful attempt is the `k`-th with `k ≤ 3`,
the connect loop calls `connect()` exactly `k` times, sends the handshake payload once and
goes on to the session; nothing after the success is attempted. If the first three attempts
fail, `connect()` is called exactly 3 times and the process exits with status 1 without
starting a session. In no case is `connect()` called more than 3 times. -/
theorem connectLoop_bounded (payload : Proto) :
    (∀ (fails rest : List Attempt), (∀ a ∈ fails, a ≠ Attempt.ok) → fails.length < 3 →
      ∃ b, connectLoop payload (fails ++ .ok :: rest) Boot.init = (some .next, b) ∧
        b.connects = fails.length + 1 ∧ b.sent = [payload] ∧
        ∀ (pt : PacketType) (cfmakeraw : Termios → Termios) (env : Env)
          (ticks : List TickInput), payload = initialPayload env →
          ∃ c w, main pt cfmakeraw env (fails ++ .ok :: rest) ticks = (c, b, some w)) ∧
    (∀ (f1 f2 f3 : Attempt) (rest : List Attempt),
      f1 ≠ Attempt.ok → f2 ≠ Attempt.ok → f3 ≠ Attempt.ok →
      ∃ b, connectLoop payload (f1 :: f2 :: f3 :: rest) Boot.init = (some (.exit 1), b) ∧
        b.connects = 3 ∧ b.sent = [] ∧
        ∀ (pt : PacketType) (cfmakeraw : Termios → Termios) (env : Env)
          (ticks : List TickInput), payload = initialPayload env →
          main pt cfmakeraw env (f1 :: f2 :: f3 :: rest) ticks =
            (some (.exit 1), b, none)) ∧
    (∀ attempts : List Attempt,
      (connectLoop payload attempts Boot.init).2.connects ≤ 3 ∧
      (connectLoop payload attempts Boot.init).2.connects ≤ attempts.length) := by
  refine ⟨fun fails rest hf hlen => ?_, fun f1 f2 f3 rest h1 h2 h3 => ?_, fun attempts => ?_⟩
  · have hmain : ∀ b, connectLoop payload (fails ++ .ok :: rest) Boot.init = (some .next, b) →
        ∀ (pt : PacketType) (cfmakeraw : Termios → Termios) (env : Env)
          (ticks : List TickInput), payload = initialPayload env →
          ∃ c w, main pt cfmakeraw env (fails ++ .ok :: rest) ticks = (c, b, some w) := by
      intro b hb pt cfmakeraw env ticks hp
      subst hp
      exact main_session_started pt cfmakeraw env _ ticks b hb
    match fails, hf, hlen, hmain with
    | [], _, _, hmain => exact ⟨_, rfl, rfl, rfl, hmain _ rfl⟩
    | [a], hf, _, hmain =>
      have ha := hf a (by simp)
      cases a <;> first | exact absurd rfl ha | exact ⟨_, rfl, rfl, rfl, hmain _ rfl⟩
    | [a, c], hf, _, hmain =>
      have ha := hf a (by simp)
      have hc := hf c (by simp)
      cases a <;> cases c <;>
        first
        | exact absurd rfl ha
        | exact absurd rfl hc
        | exact ⟨_, rfl, rfl, rfl, hmain _ rfl⟩
    | _ :: _ :: _ :: _, _, hlen, _ => simp at hlen; omega
  · cases f1 <;> cases f2 <;> cases f3 <;>
      first
      | exact absurd rfl h1
      | exact absurd rfl h2
      | exact absurd rfl h3
      | exact ⟨_, rfl, rfl, rfl, fun pt cfmakeraw env ticks hp => by subst hp; rfl⟩
  · have := connectLoop_connects_le payload attempts Boot.init rfl (by decide)
    simpa [Boot.init] using this

/-- Witness for C9: a failed `connect()`, then a failed handshake write, then a success:
three calls of `connect()`, one payload sent, and the attempt queued behind them is not
made. -/
theorem connectLoop_bounded_witness :
    ∃ b, connectLoop (initialPayload env0)
        ([.connectRaises, .writeRaises] ++ .ok :: [.connectRaises]) Boot.init =
        (some .next, b) ∧
      b.connects = 2 + 1 ∧ b.sent = [initialPayload env0] :=
  match (connectLoop_bounded (initialPayload env0)).1 [.connectRaises, .writeRaises]
    [.connectRaises] (by decide) (by decide) with
  | ⟨b, h1, h2, h3, _⟩ => ⟨b, h1, h2, h3⟩

/-! ## Terminal mode -/

/-- The local-input step leaves the terminal attributes and their saved copy alone. -/
theorem localInput_terminal (pt : PacketType) (i : LocalInput) (w : World) :
    (localInput pt i w).2.terminal_backup = w.terminal_backup ∧
    (localInput pt i w).2.termios = w.termios := by
  unfold localInput
  split
  · simp
  · simp
  · split_ifs <;> simp [World.emit, World.now]

/-- Dispatching a frame leaves the terminal attributes and their saved copy alone. -/
theorem dispatch_terminal (pt : PacketType) (m : Bytes) (tb : Option Bytes) (now : Int)
    (written : Bool) (w : World) :
    (dispatch pt m tb now written w).2.terminal_backup = w.terminal_backup ∧
    (dispatch pt m tb now written w).2.termios = w.termios := by
  unfold dispatch
  cases tb <;> simp only <;> split_ifs <;> simp [World.emit, World.now]

/-- The drain loop leaves the terminal attributes and their saved copy alone. -/
theorem drain_terminal (pt : PacketType) (inbound : List Inbound) (w : World) :
    (drain pt inbound w).2.terminal_backup = w.terminal_backup ∧
    (drain pt inbound w).2.termios = w.termios := by
  induction inbound generalizing w with
  | nil => simp [drain]
  | cons x rest ih =>
    cases x with
    | noMessage => simp [drain]
    | readRaises => simp [drain]
    | frame m tb now written =>
      have hd := dispatch_terminal pt m tb now written w
      rw [drain]
      split
      · rename_i w1 heq
        rw [heq] at hd
        have := ih w1
        exact ⟨this.1.trans hd.1, this.2.trans hd.2⟩
      · exact hd

/-- The keepalive check leaves the terminal attributes and their saved copy alone. -/
theorem keepaliveCheck_terminal (pt : PacketType) (i : KeepaliveInput) (w : World) :
    (keepaliveCheck pt i w).2.terminal_backup = w.terminal_backup ∧
    (keepaliveCheck pt i w).2.termios = w.termios := by
  unfold keepaliveCheck
  simp only
  split_ifs <;> simp [World.emit, World.now]

/-- The geometry check leaves the terminal attributes and their saved copy alone. -/
theorem geometryCheck_terminal (pt : PacketType) (i : GeometryInput) (w : World) :
    (geometryCheck pt i w).2.terminal_backup = w.terminal_backup ∧
    (geometryCheck pt i w).2.termios = w.termios := by
  unfold geometryCheck
  simp only
  split_ifs <;> simp [World.emit]

/-- The `try` block leaves the terminal attributes and their saved copy alone. -/
theorem tryBlock_terminal (pt : PacketType) (i : TickInput) (w : World) :
    (tryBlock pt i w).2.terminal_backup = w.terminal_backup ∧
    (tryBlock pt i w).2.termios = w.termios := by
  have h1 := localInput_terminal pt i.input w
  unfold tryBlock
  split
  · rename_i w1 e1
    rw [e1] at h1
    have h2 := drain_terminal pt i.inbound w1
    split
    · rename_i w2 e2
      rw [e2] at h2
      have h3 := keepaliveCheck_terminal pt i.keepalive w2
      split
      · rename_i w3 e3
        rw [e3] at h3
        have h4 := geometryCheck_terminal pt i.geometry w3
        exact ⟨h4.1.trans (h3.1.trans (h2.1.trans h1.1)),
          h4.2.trans (h3.2.trans (h2.2.trans h1.2))⟩
      · exact ⟨h3.1.trans (h2.1.trans h1.1), h3.2.trans (h2.2.trans h1.2)⟩
    · exact ⟨h2.1.trans h1.1, h2.2.trans h1.2⟩
  · exact h1

/-- One tick leaves the terminal attributes and their saved copy alone. -/
theorem tick_terminal (pt : PacketType) (i : TickInput) (w : World) :
    (tick pt i w).2.terminal_backup = w.terminal_backup ∧
    (tick pt i w).2.termios = w.termios := by
  have h := tryBlock_terminal pt i w
  unfold tick
  split
  · rename_i w1 e1
    rw [e1] at h
    exact h
  · exact h

/-- One tick never ends with a propagating `runtime_error`: the handler catches it. -/
theorem tick_not_raised (pt : PacketType) (i : TickInput) (w : World) :
    (tick pt i w).1 ≠ .raised := by
  unfold tick
  split
  · simp
  · rename_i h
    intro e
    exact h (tryBlock pt i w).2 (Prod.ext e rfl)

/-- The session loop leaves the terminal attributes and their saved copy alone. -/
theorem sessionLoop_terminal (pt : PacketType) (ticks : List TickInput) (w : World) :
    (sessionLoop pt ticks w).2.terminal_backup = w.terminal_backup ∧
    (sessionLoop pt ticks w).2.termios = w.termios := by
  induction ticks generalizing w with
  | nil => simp [sessionLoop]
  | cons i rest ih =>
    have ht := tick_terminal pt i w
    rw [sessionLoop]
    split_ifs
    · split
      · rename_i w1 e1
        rw [e1] at ht
        have := ih w1
        exact ⟨this.1.trans ht.1, this.2.trans ht.2⟩
      · rename_i c w1 _ e1
        rw [e1] at ht
        exact ht
    · simp

/-- A loop that is still running after the ticks `pre` goes on with the rest of the ticks
from the state it reached. -/
theorem sessionLoop_append (pt : PacketType) (pre rest : List TickInput) (w w1 : World)
    (h : sessionLoop pt pre w = (none, w1)) :
    w1.run = true ∧ sessionLoop pt (pre ++ rest) w = sessionLoop pt rest w1 := by
  induction pre generalizing w with
  | nil =>
    simp only [sessionLoop] at h
    split_ifs at h with hr
    · simp at h
      subst h
      exact ⟨hr, rfl⟩
    · simp at h
  | cons i pre ih =>
    rw [sessionLoop] at h
    split_ifs at h with hr
    · rw [List.cons_append, sessionLoop, if_pos hr]
      split at h
      · exact ih _ h
      · simp at h
    · simp at h

/-- Once `run` is false the loop is left at its next test. -/
theorem sessionLoop_stopped (pt : PacketType) (ticks : List TickInput) (w : World)
    (h : w.run = false) : sessionLoop pt ticks w = (some .next, w) := by
  cases ticks <;> simp [sessionLoop, h]

/-- C10: terminal mode restoration. Let `a` be the attributes found on the terminal device
when raw mode is entered. If the session loop is still running after some ticks and a
`runtime_error` is raised anywhere in the `try` block of the next tick, `main` returns 0
and the attributes of the device are `a` again. The saved copy is `a` from before the loop
on, and no tick changes it or touches the device. -/
theorem terminal_restored (pt : PacketType) (cfmakeraw : Termios → Termios) (env : Env)
    (attempts : List Attempt) (b : Boot) (pre : List TickInput) (i : TickInput)
    (post : List TickInput) (w1 : World)
    (hboot : connectLoop (initialPayload env) attempts Boot.init = (some .next, b))
    (hpre : sessionLoop pt pre (startSession cfmakeraw env) = (none, w1))
    (hraise : (tryBlock pt i w1).1 = .raised) :
    (∃ w, main pt cfmakeraw env attempts (pre ++ i :: post) = (some .next, b, some w) ∧
      w.termios = env.termios ∧ w.terminal_backup = env.termios ∧ w.run = false) ∧
    (startSession cfmakeraw env).terminal_backup = env.termios ∧
    (startSession cfmakeraw env).termios = cfmakeraw env.termios ∧
    (∀ (j : TickInput) (v : World),
      (tick pt j v).2.terminal_backup = v.terminal_backup ∧
      (tick pt j v).2.termios = v.termios) ∧
    (∀ (ticks : List TickInput) (w : World),
      main pt cfmakeraw env attempts ticks = (some .next, b, some w) →
      w.termios = env.termios) := by
  refine ⟨?_, rfl, rfl, fun j v => tick_terminal pt j v, fun ticks w hm => ?_⟩
  · obtain ⟨hrun, happ⟩ := sessionLoop_append pt pre (i :: post) _ w1 hpre
    have hpre_t := sessionLoop_terminal pt pre (startSession cfmakeraw env)
    rw [hpre] at hpre_t
    have htry := tryBlock_terminal pt i w1
    cases ht : tryBlock pt i w1 with
    | mk c w2 =>
      rw [ht] at hraise htry
      simp only at hraise htry
      subst hraise
      have htick : tick pt i w1 = (.next, { w2 with run := false }) := by
        simp [tick, ht]
      have hloop : sessionLoop pt (pre ++ i :: post) (startSession cfmakeraw env) =
          (some .next, { w2 with run := false }) := by
        rw [happ, sessionLoop, if_pos hrun, htick]
        exact sessionLoop_stopped pt post _ rfl
      refine ⟨cleanup { w2 with run := false }, ?_, ?_, ?_, rfl⟩
      · simp [main, hboot, hloop]
      · simp only [cleanup]
        rw [htry.1, hpre_t.1]
        rfl
      · simp only [cleanup]
        rw [htry.1, hpre_t.1]
        rfl
  · have hl := sessionLoop_terminal pt ticks (startSession cfmakeraw env)
    simp only [main, hboot] at hm
    cases hs : sessionLoop pt ticks (startSession cfmakeraw env) with
    | mk c v =>
      rw [hs] at hm hl
      match c, hm with
      | some .next, hm =>
        simp only [Prod.mk.injEq, Option.some.injEq, true_and] at hm
        rw [← hm]
        simp only [cleanup]
        rw [hl.1]
        rfl
      | some .raised, hm => simp at hm
      | some (.exit _), hm => simp at hm
      | some .abort, hm => simp at hm
      | none, hm => simp at hm

/-- Witness for C10: the connection succeeds at once, one quiet tick passes, and in the
second tick `writeMessage` raises while a key press is being forwarded; `main` returns 0
with the terminal attributes of `env0` back in place. -/
theorem terminal_restored_witness :
    ∃ w, main pt0 raw0 env0 [.ok]
        ([quiet 100] ++
          { quiet 100 with input := { stdin := .read [108], writeHeader := false,
                                      writeBuffer := true, now := 100 } } :: [quiet 101]) =
        (some .next, { connectFailCount := 0, connects := 1, sent := [initialPayload env0] },
          some w) ∧
      w.termios = env0.termios ∧ w.terminal_backup = env0.termios ∧ w.run = false :=
  (terminal_restored pt0 raw0 env0 [.ok]
    { connectFailCount := 0, connects := 1, sent := [initialPayload env0] } [quiet 100]
    { quiet 100 with input := { stdin := .read [108], writeHeader := false,
                                writeBuffer := true, now := 100 } }
    [quiet 101] (sessionLoop pt0 [quiet 100] w0).2 (by decide) (by decide) (by decide)).1

/-! ## The clock record -/

/-- If the clock is in order after the local-input step, it was in order before, and the
reading made (if any) was not below the one before it. -/
theorem localInput_clockOk (pt : PacketType) (i : LocalInput) (w : World)
    (h : (localInput pt i w).2.clockOk = true) : w.clockOk = true := by
  revert h
  unfold localInput
  split
  · simp
  · simp
  · split_ifs <;> simp +contextual [World.emit, World.now]

/-- If the clock is in order after a dispatch, it was in order before. -/
theorem dispatch_clockOk (pt : PacketType) (m : Bytes) (tb : Option Bytes) (now : Int)
    (written : Bool) (w : World) (h : (dispatch pt m tb now written w).2.clockOk = true) :
    w.clockOk = true := by
  revert h
  unfold dispatch
  cases tb <;> simp only <;> split_ifs <;> simp +contextual [World.emit, World.now]

/-- If the clock is in order after the drain loop, it was in order before. -/
theorem drain_clockOk (pt : PacketType) (inbound : List Inbound) (w : World)
    (h : (drain pt inbound w).2.clockOk = true) : w.clockOk = true := by
  induction inbound generalizing w with
  | nil => simpa [drain] using h
  | cons x rest ih =>
    cases x with
    | noMessage => simpa [drain] using h
    | readRaises => simpa [drain] using h
    | frame m tb now written =>
      rw [drain] at h
      split at h
      · rename_i w1 heq
        have := ih w1 h
        exact dispatch_clockOk pt m tb now written w (by rw [heq]; exact this)
      · exact dispatch_clockOk pt m tb now written w h

/-- If the clock is in order after the keepalive check, it was in order before. -/
theorem keepaliveCheck_clockOk (pt : PacketType) (i : KeepaliveInput) (w : World)
    (h : (keepaliveCheck pt i w).2.clockOk = true) : w.clockOk = true := by
  revert h
  unfold keepaliveCheck
  simp only
  split_ifs <;> simp +contextual [World.emit, World.now]

/-- The geometry check reads no clock. -/
theorem geometryCheck_clockOk (pt : PacketType) (i : GeometryInput) (w : World)
    (h : (geometryCheck pt i w).2.clockOk = true) : w.clockOk = true := by
  revert h
  unfold geometryCheck
  simp only
  split_ifs <;> simp +contextual [World.emit]

/-! ## Composition of the steps of a tick -/

/-- The relation `Preserves P` is reflexive. -/
theorem Preserves.refl (P : World → Prop) (w : World) : Preserves P w w :=
  fun h => ⟨h, id⟩

/-- The relation `Preserves P` is transitive. -/
theorem Preserves.trans {P : World → Prop} {a b c : World} (h1 : Preserves P a b)
    (h2 : Preserves P b c) : Preserves P a c :=
  fun h => ⟨(h1 (h2 h).1).1, fun p => (h2 h).2 ((h1 (h2 h).1).2 p)⟩

/-- A property carried along by each of the four steps of a tick, and by the handler that
clears `run`, is carried along by the tick. -/
theorem tick_preserves (pt : PacketType) (P : World → Prop) (i : TickInput)
    (hstop : ∀ w, P w → P { w with run := false })
    (h1 : ∀ w, Preserves P w (localInput pt i.input w).2)
    (h2 : ∀ w, Preserves P w (drain pt i.inbound w).2)
    (h3 : ∀ w, Preserves P w (keepaliveCheck pt i.keepalive w).2)
    (h4 : ∀ w, Preserves P w (geometryCheck pt i.geometry w).2) (w : World) :
    Preserves P w (tick pt i w).2 := by
  have htry : Preserves P w (tryBlock pt i w).2 := by
    have a1 := h1 w
    unfold tryBlock
    split
    · rename_i w1 e1
      rw [e1] at a1
      have a2 := h2 w1
      split
      · rename_i w2 e2
        rw [e2] at a2
        have a3 := h3 w2
        split
        · rename_i w3 e3
          rw [e3] at a3
          exact (a1.trans a2).trans (a3.trans (h4 w3))
        · exact a1.trans (a2.trans a3)
      · exact a1.trans a2
    · exact a1
  unfold tick
  split
  · rename_i w1 e1
    rw [e1] at htry
    exact htry.trans (fun h => ⟨h, hstop w1⟩)
  · exact htry

/-- A property carried along by every tick of a run is carried along by the run. -/
theorem sessionLoop_preserves (pt : PacketType) (P : World → Prop) (ticks : List TickInput)
    (h : ∀ i ∈ ticks, ∀ w, Preserves P w (tick pt i w).2) (w : World) :
    Preserves P w (sessionLoop pt ticks w).2 := by
  induction ticks generalizing w with
  | nil => simpa [sessionLoop] using Preserves.refl P w
  | cons i rest ih =>
    have ht := h i (by simp) w
    have ih1 := ih (fun j hj => h j (by simp [hj]))
    rw [sessionLoop]
    split_ifs
    · split
      · rename_i w1 e1
        rw [e1] at ht
        exact ht.trans (ih1 w1)
      · rename_i c w1 _ e1
        rw [e1] at ht
        exact ht
    · exact Preserves.refl P w

/-! ## Alternation of liveness events -/

/-- Converting two different valid packet-type values to `char` gives different
characters. -/
theorem toChar_ne (a b : Int) (ha0 : 0 ≤ a) (ha1 : a < 128) (hab : a ≠ b) (hb0 : 0 ≤ b)
    (hb1 : b < 128) : toChar a ≠ toChar b := by
  intro h
  have h1 := (charToInt_eq_iff (toChar a) a ha0 ha1).mpr rfl
  rw [h, (charToInt_eq_iff (toChar b) b hb0 hb1).mpr rfl] at h1
  exact hab h1.symm

/-- The header of a `TerminalBuffer` frame is not a liveness event. -/
theorem isLiveness_bufferHeader (pt : PacketType) (hv : pt.Valid) (t : Int) :
    isLiveness pt (t, .writeMessage [toChar pt.TERMINAL_BUFFER]) = false := by
  have := toChar_ne _ _ hv.1.1 hv.1.2 hv.2.2.2.1 hv.2.1.1 hv.2.1.2
  simp [isLiveness, this]

/-- The header of a `TerminalInfo` frame is not a liveness event. -/
theorem isLiveness_infoHeader (pt : PacketType) (hv : pt.Valid) (t : Int) :
    isLiveness pt (t, .writeMessage [toChar pt.TERMINAL_INFO]) = false := by
  have := toChar_ne _ _ hv.2.1.1 hv.2.1.2 hv.2.2.2.2.2 hv.2.2.1.1 hv.2.2.1.2
  simp [isLiveness, Ne.symm this]

/-- An event that is not a liveness event does not disturb the invariant. -/
theorem Alternating.alt_cons {pt : PacketType} {tr : List (Int × Event)} {waiting : Bool}
    {clock deadline : Int} (x : Int × Event) (hx : isLiveness pt x = false)
    (h : Alternating pt tr waiting clock deadline) :
    Alternating pt (x :: tr) waiting clock deadline := by
  unfold Alternating at h ⊢
  rw [List.filter_cons_of_neg (by simp [hx])]
  exact h

/-- Reading the clock, with or without moving the deadline to the reading plus 5, does
not disturb the invariant. -/
theorem Alternating.alt_advance {pt : PacketType} {tr : List (Int × Event)} {waiting : Bool}
    {clock deadline : Int} (t : Int) (ht : clock ≤ t)
    (h : Alternating pt tr waiting clock deadline) :
    Alternating pt tr waiting t deadline ∧ Alternating pt tr waiting t (t + 5) := by
  unfold Alternating at h ⊢
  obtain ⟨h1, h2, h3, h4⟩ := h
  refine ⟨⟨h1, h2, fun e he => ?_, h4⟩, ⟨h1, h2, fun e he => ?_, h4⟩⟩
  · have := h3 e he
    exact ⟨this.1, by omega, this.2.2⟩
  · have := h3 e he
    exact ⟨by omega, by omega, this.2.2⟩

/-- A liveness event made by a check that fired keeps the invariant: a close when a
keepalive was outstanding, a KeepAlive otherwise. -/
theorem Alternating.alt_fire {pt : PacketType} {tr : List (Int × Event)} {waiting : Bool}
    {clock deadline : Int} (t1 t2 : Int) (hfire : deadline < t1) (ht : t1 ≤ t2)
    (h : Alternating pt tr waiting clock deadline) :
    (waiting = true → Alternating pt ((t2, .closeSocket) :: tr) false t2 (t2 + 5)) ∧
    (waiting = false →
      Alternating pt ((t2, .writeMessage [toChar pt.KEEP_ALIVE]) :: tr) true t2 (t2 + 5)) := by
  unfold Alternating at h ⊢
  obtain ⟨h1, h2, h3, h4⟩ := h
  constructor
  · intro hw
    rw [List.filter_cons_of_pos (by simp [isLiveness])]
    cases hL : tr.filter (isLiveness pt) with
    | nil => exact absurd (h4 hL) (by simp [hw])
    | cons y ys =>
      rw [hL] at h1 h2 h3
      have h3y := h3 y (by simp)
      refine ⟨?_, ?_, ?_, by simp⟩
      · rw [List.chain'_cons']
        refine ⟨fun z hz => ?_, h1⟩
        simp only [List.head?_cons, Option.mem_def, Option.some.injEq] at hz
        subst hz
        refine ⟨?_, by omega⟩
        rw [h3y.2.2.mpr hw]
        simp
      · intro e he
        rw [List.getLast?_cons_cons] at he
        exact h2 e he
      · intro e he
        simp only [List.head?_cons, Option.mem_def, Option.some.injEq] at he
        subst he
        simp
  · intro hw
    rw [List.filter_cons_of_pos (by simp [isLiveness])]
    refine ⟨?_, ?_, ?_, by simp⟩
    · rw [List.chain'_cons']
      refine ⟨fun z hz => ?_, h1⟩
      have h3z := h3 z hz
      refine ⟨?_, by omega⟩
      intro e
      have := h3z.2.2.mp e
      simp [hw] at this
    · intro e he
      cases hL : tr.filter (isLiveness pt) with
      | nil =>
        rw [hL] at he
        simp at he
        rw [← he]
      | cons y ys =>
        rw [hL, List.getLast?_cons_cons] at he
        rw [hL] at h2
        exact h2 e he
    · intro e he
      simp only [List.head?_cons, Option.mem_def, Option.some.injEq] at he
      subst he
      simp

/-- The local-input step carries the alternation invariant along. -/
theorem localInput_alternating (pt : PacketType) (hv : pt.Valid) (i : LocalInput)
    (w : World) : Preserves (AlternatingAt pt) w (localInput pt i w).2 := by
  intro hok
  refine ⟨localInput_clockOk pt i w hok, fun hA => ?_⟩
  revert hok
  unfold localInput
  split
  · exact fun _ => hA
  · exact fun _ => hA
  · split_ifs
    · simp only [World.emit, World.now, AlternatingAt, Bool.and_eq_true, decide_eq_true_eq]
      intro hok
      exact ((hA.alt_cons _ (isLiveness_bufferHeader pt hv _)).alt_cons _
        (by simp [isLiveness])).alt_advance _ hok.2 |>.2
    · exact fun _ => hA.alt_cons _ (isLiveness_bufferHeader pt hv _)
    · exact fun _ => hA
    · exact fun _ => hA

/-- Without an inbound frame the drain loop changes nothing. -/
theorem drain_quiet (pt : PacketType) (inbound : List Inbound) (w : World)
    (h : ∀ x ∈ inbound, x.isFrame = false) : (drain pt inbound w).2 = w := by
  cases inbound with
  | nil => rfl
  | cons x rest =>
    cases x with
    | noMessage => rfl
    | readRaises => rfl
    | frame m tb now written => simpa [Inbound.isFrame] using h (.frame m tb now written)

/-- The keepalive check carries the alternation invariant along. -/
theorem keepaliveCheck_alternating (pt : PacketType) (i : KeepaliveInput) (w : World) :
    Preserves (AlternatingAt pt) w (keepaliveCheck pt i w).2 := by
  intro hok
  refine ⟨keepaliveCheck_clockOk pt i w hok, fun hA => ?_⟩
  revert hok
  unfold keepaliveCheck
  simp only
  split_ifs with hfire hw hc hwr
  · simp only [World.emit, World.now, AlternatingAt, Bool.and_eq_true, decide_eq_true_eq]
    intro hok
    exact (hA.alt_advance _ hok.1.2 |>.1.alt_fire _ _ hfire hok.2).1 hw
  · simp only [World.now, AlternatingAt, Bool.and_eq_true, decide_eq_true_eq]
    intro hok
    exact (hA.alt_advance _ hok.1.2 |>.1.alt_advance _ hok.2).2
  · simp only [World.emit, World.now, AlternatingAt, Bool.and_eq_true, decide_eq_true_eq]
    intro hok
    exact (hA.alt_advance _ hok.1.2 |>.1.alt_fire _ _ hfire hok.2).2 (by simpa using hw)
  · simp only [World.now, AlternatingAt, Bool.and_eq_true, decide_eq_true_eq]
    intro hok
    exact (hA.alt_advance _ hok.1.2 |>.1.alt_advance _ hok.2).2
  · simp only [World.now, AlternatingAt, Bool.and_eq_true, decide_eq_true_eq]
    intro hok
    exact (hA.alt_advance _ hok.2).1

/-- The geometry check carries the alternation invariant along. -/
theorem geometryCheck_alternating (pt : PacketType) (hv : pt.Valid) (i : GeometryInput)
    (w : World) : Preserves (AlternatingAt pt) w (geometryCheck pt i w).2 := by
  intro hok
  refine ⟨geometryCheck_clockOk pt i w hok, fun hA => ?_⟩
  unfold geometryCheck
  simp only
  split_ifs
  · exact (hA.alt_cons _ (isLiveness_infoHeader pt hv _)).alt_cons _
      (by simp [isLiveness])
  · exact hA.alt_cons _ (isLiveness_infoHeader pt hv _)
  · exact hA
  · exact hA

/-- C3: keepalive rate and single death declaration. In every run of the session loop in
which the clock never goes backwards and no inbound frame is ever read (local input may
come at any time), the liveness events, taken in the order they happen, begin with a
KeepAlive sent, and any two consecutive ones are of different kinds (so they alternate:
send, close, send, close, ...) and at least 5 seconds apart. -/
theorem liveness_alternates (pt : PacketType) (hv : pt.Valid)
    (cfmakeraw : Termios → Termios) (env : Env) (ticks : List TickInput)
    (hquiet : ∀ i ∈ ticks, ∀ x ∈ i.inbound, x.isFrame = false)
    (hclock : (sessionLoop pt ticks (startSession cfmakeraw env)).2.clockOk = true) :
    (∀ e ∈ (livenessEvents pt (sessionLoop pt ticks (startSession cfmakeraw env)).2).head?,
      e.2 = .writeMessage [toChar pt.KEEP_ALIVE]) ∧
    List.Chain' (fun a b => a.2 ≠ b.2 ∧ a.1 + 5 ≤ b.1)
      (livenessEvents pt (sessionLoop pt ticks (startSession cfmakeraw env)).2) ∧
    (∀ e ∈ livenessEvents pt (sessionLoop pt ticks (startSession cfmakeraw env)).2,
      e.2 = .writeMessage [toChar pt.KEEP_ALIVE] ∨ e.2 = .closeSocket) := by
  have hstart : AlternatingAt pt (startSession cfmakeraw env) := by
    simp [AlternatingAt, Alternating, startSession]
  have hrun := sessionLoop_preserves pt (AlternatingAt pt) ticks (fun i hi w =>
    tick_preserves pt (AlternatingAt pt) i (fun _ h => h)
      (localInput_alternating pt hv i.input)
      (fun v => by rw [drain_quiet pt i.inbound v (hquiet i hi)]; exact Preserves.refl _ v)
      (keepaliveCheck_alternating pt i.keepalive)
      (geometryCheck_alternating pt hv i.geometry) w) (startSession cfmakeraw env)
  obtain ⟨h1, h2, _, _⟩ := (hrun hclock).2 hstart
  refine ⟨?_, ?_, ?_⟩
  · intro e he
    rw [livenessEvents, List.head?_reverse] at he
    exact h2 e he
  · rw [livenessEvents, List.chain'_reverse]
    exact h1
  · intro e he
    rw [livenessEvents, List.mem_reverse, List.mem_filter] at he
    simpa [isLiveness] using he.2

/-- Witness for C3: a run of twelve seconds with a key press at second 103 and nothing
coming in. The deadline moves to 108, a KeepAlive goes out at 109 and the transport is
closed at 115. -/
theorem liveness_alternates_witness :
    livenessEvents pt0 (sessionLoop pt0
      [quiet 101,
       { quiet 103 with input := { stdin := .read [108], writeHeader := true,
                                   writeBuffer := true, now := 103 } },
       quiet 106, quiet 108, quiet 109, quiet 112, quiet 114, quiet 115]
      (startSession raw0 env0)).2 =
      [(109, .writeMessage [toChar pt0.KEEP_ALIVE]), (115, .closeSocket)] ∧
    List.Chain' (fun a b => a.2 ≠ b.2 ∧ a.1 + 5 ≤ b.1)
      (livenessEvents pt0 (sessionLoop pt0
        [quiet 101,
         { quiet 103 with input := { stdin := .read [108], writeHeader := true,
                                     writeBuffer := true, now := 103 } },
         quiet 106, quiet 108, quiet 109, quiet 112, quiet 114, quiet 115]
        (startSession raw0 env0)).2) :=
  ⟨by decide,
    (liveness_alternates pt0 (by decide) raw0 env0
      [quiet 101,
       { quiet 103 with input := { stdin := .read [108], writeHeader := true,
                                   writeBuffer := true, now := 103 } },
       quiet 106, quiet 108, quiet 109, quiet 112, quiet 114, quiet 115]
      (by decide) (by decide)).2.1⟩

/-! ## Grace window -/

/-- An event other than a close keeps the grace window. -/
theorem GraceWindow.cons {pt : PacketType} {d dq : Int} {tr : List (Int × Event)}
    (x : Int × Event) (hx : x.2 ≠ .closeSocket) (h : GraceWindow pt d dq tr) :
    GraceWindow pt d dq (x :: tr) := by
  intro later t earlier heq
  cases later with
  | nil =>
    simp only [List.nil_append, List.cons.injEq] at heq
    exact absurd (by rw [heq.1]) hx
  | cons y later =>
    simp only [List.cons_append, List.cons.injEq] at heq
    exact h later t earlier heq.2

/-- A close keeps the grace window if it comes late enough after the outstanding
keepalive. -/
theorem GraceWindow.cons_close {pt : PacketType} {d dq : Int} {tr : List (Int × Event)}
    (t : Int) (h : GraceWindow pt d dq tr)
    (hp : ∃ p, pendingKeepalive pt tr = some p ∧ p.1 + d ≤ t ∧ (p.2 = false → p.1 + dq ≤ t)) :
    GraceWindow pt d dq ((t, .closeSocket) :: tr) := by
  intro later u earlier heq
  cases later with
  | nil =>
    simp only [List.nil_append, List.cons.injEq, Prod.mk.injEq, and_true] at heq
    rw [← heq.1, ← heq.2]
    exact hp
  | cons y later =>
    simp only [List.cons_append, List.cons.injEq] at heq
    exact h later u earlier heq.2

/-- An event that is neither a close, nor a KeepAlive sent, nor a payload read does not
disturb the invariant. -/
theorem Graced.cons_other {pt : PacketType} {tr : List (Int × Event)} {waiting : Bool}
    {clock deadline : Int} (x : Int × Event) (hc : x.2 ≠ .closeSocket)
    (hp : pendingKeepalive pt (x :: tr) = pendingKeepalive pt tr)
    (h : Graced pt tr waiting clock deadline) :
    Graced pt (x :: tr) waiting clock deadline := by
  unfold Graced at h ⊢
  rw [hp]
  exact ⟨h.1.cons x hc, h.2⟩

/-- Reading the clock, with or without moving the deadline to the reading plus 5, does
not disturb the invariant. -/
theorem Graced.advance {pt : PacketType} {tr : List (Int × Event)} {waiting : Bool}
    {clock deadline : Int} (t : Int) (ht : clock ≤ t)
    (h : Graced pt tr waiting clock deadline) :
    Graced pt tr waiting t deadline ∧ Graced pt tr waiting t (t + 5) := by
  unfold Graced at h ⊢
  refine ⟨⟨h.1, fun hw => ?_⟩, ⟨h.1, fun hw => ?_⟩⟩
  · obtain ⟨p, h1, h2, h3, h4⟩ := h.2 hw
    exact ⟨p, h1, by omega, h3, h4⟩
  · obtain ⟨p, h1, h2, h3, h4⟩ := h.2 hw
    exact ⟨p, h1, by omega, by omega, fun _ => by omega⟩

/-- Reading a `TerminalBuffer` and moving the deadline to the clock value plus 1 keeps the
invariant. -/
theorem Graced.buffer {pt : PacketType} {tr : List (Int × Event)} {waiting : Bool}
    {clock deadline : Int} (c : Int) (s : Bytes) (t : Int) (ht : clock ≤ t)
    (h : Graced pt tr waiting clock deadline) :
    Graced pt ((c, .readProto s) :: tr) waiting t (t + 1) := by
  unfold Graced at h ⊢
  refine ⟨h.1.cons _ (by simp), fun hw => ?_⟩
  obtain ⟨p, h1, h2, h3, h4⟩ := h.2 hw
  refine ⟨(p.1, true), ?_, by simp; omega, by simp; omega, by simp⟩
  simp [pendingKeepalive, h1]

/-- Clearing the flag keeps the invariant. -/
theorem Graced.clear {pt : PacketType} {tr : List (Int × Event)} {waiting : Bool}
    {clock deadline : Int} (h : Graced pt tr waiting clock deadline) :
    Graced pt tr false clock deadline :=
  ⟨h.1, fun hw => absurd hw (by simp)⟩

/-- A liveness event made by a check that fired keeps the invariant. -/
theorem Graced.fire {pt : PacketType} {tr : List (Int × Event)} {waiting : Bool}
    {clock deadline : Int} (t1 t2 : Int) (hfire : deadline < t1) (ht : t1 ≤ t2)
    (h : Graced pt tr waiting clock deadline) :
    (waiting = true → Graced pt ((t2, .closeSocket) :: tr) false t2 (t2 + 5)) ∧
    (waiting = false →
      Graced pt ((t2, .writeMessage [toChar pt.KEEP_ALIVE]) :: tr) true t2 (t2 + 5)) := by
  unfold Graced at h ⊢
  constructor
  · intro hw
    obtain ⟨p, h1, h2, h3, h4⟩ := h.2 hw
    refine ⟨h.1.cons_close t2 ⟨p, h1, by omega, fun hq => ?_⟩, fun hf => absurd hf (by simp)⟩
    have := h4 hq
    omega
  · intro _
    refine ⟨h.1.cons _ (by simp), fun _ => ⟨(t2, false), ?_, ?_, ?_, ?_⟩⟩
    · simp [pendingKeepalive]
    · simp
    · simp
    · simp

/-- The local-input step carries the grace invariant along. -/
theorem localInput_graced (pt : PacketType) (hv : pt.Valid) (i : LocalInput) (w : World) :
    Preserves (GracedAt pt) w (localInput pt i w).2 := by
  have hne := toChar_ne _ _ hv.1.1 hv.1.2 hv.2.2.2.1 hv.2.1.1 hv.2.1.2
  intro hok
  refine ⟨localInput_clockOk pt i w hok, fun hA => ?_⟩
  revert hok
  unfold localInput
  split
  · exact fun _ => hA
  · exact fun _ => hA
  · split_ifs
    · simp only [World.emit, World.now, GracedAt, Bool.and_eq_true, decide_eq_true_eq]
      intro hok
      exact ((hA.cons_other _ (by simp) (by simp [pendingKeepalive, hne])).cons_other _
        (by simp) (by simp [pendingKeepalive])).advance _ hok.2 |>.2
    · exact fun _ => hA.cons_other _ (by simp) (by simp [pendingKeepalive, hne])
    · exact fun _ => hA
    · exact fun _ => hA

/-- Dispatching a frame carries the grace invariant along. -/
theorem dispatch_graced (pt : PacketType) (m : Bytes) (tb : Option Bytes)
    (now : Int) (written : Bool) (w : World) :
    Preserves (GracedAt pt) w (dispatch pt m tb now written w).2 := by
  intro hok
  refine ⟨dispatch_clockOk pt m tb now written w hok, fun hA => ?_⟩
  have h0 : Graced pt ((w.clock, .readMessage m) :: w.trace) w.waitingOnKeepalive w.clock
      w.keepaliveTime := hA.cons_other _ (by simp) (by simp [pendingKeepalive])
  revert hok
  unfold dispatch
  cases tb <;> simp only <;> split_ifs
  all_goals simp only [World.emit, World.now, GracedAt, Bool.and_eq_true, decide_eq_true_eq]
  all_goals intro hok
  all_goals first
    | exact h0
    | exact h0.clear
    | exact (h0.buffer _ _ _ hok.2).cons_other _ (by simp) (by simp [pendingKeepalive])
    | exact h0.buffer _ _ _ hok.2

/-- The drain loop carries the grace invariant along. -/
theorem drain_graced (pt : PacketType) (inbound : List Inbound) (w : World) :
    Preserves (GracedAt pt) w (drain pt inbound w).2 := by
  induction inbound generalizing w with
  | nil => exact Preserves.refl _ w
  | cons x rest ih =>
    cases x with
    | noMessage => exact Preserves.refl _ w
    | readRaises => exact Preserves.refl _ w
    | frame m tb now written =>
      have hd := dispatch_graced pt m tb now written w
      rw [drain]
      split
      · rename_i w1 heq
        rw [heq] at hd
        exact hd.trans (ih w1)
      · exact hd

/-- The keepalive check carries the grace invariant along. -/
theorem keepaliveCheck_graced (pt : PacketType) (i : KeepaliveInput) (w : World) :
    Preserves (GracedAt pt) w (keepaliveCheck pt i w).2 := by
  intro hok
  refine ⟨keepaliveCheck_clockOk pt i w hok, fun hA => ?_⟩
  revert hok
  unfold keepaliveCheck
  simp only
  split_ifs with hfire hw hc hwr
  · simp only [World.emit, World.now, GracedAt, Bool.and_eq_true, decide_eq_true_eq]
    intro hok
    exact (hA.advance _ hok.1.2 |>.1.fire _ _ hfire hok.2).1 hw
  · simp only [World.now, GracedAt, Bool.and_eq_true, decide_eq_true_eq]
    intro hok
    exact (hA.advance _ hok.1.2 |>.1.advance _ hok.2).2
  · simp only [World.emit, World.now, GracedAt, Bool.and_eq_true, decide_eq_true_eq]
    intro hok
    exact (hA.advance _ hok.1.2 |>.1.fire _ _ hfire hok.2).2 (by simpa using hw)
  · simp only [World.now, GracedAt, Bool.and_eq_true, decide_eq_true_eq]
    intro hok
    exact (hA.advance _ hok.1.2 |>.1.advance _ hok.2).2
  · simp only [World.now, GracedAt, Bool.and_eq_true, decide_eq_true_eq]
    intro hok
    exact (hA.advance _ hok.2).1

/-- The geometry check carries the grace invariant along. -/
theorem geometryCheck_graced (pt : PacketType) (hv : pt.Valid) (i : GeometryInput)
    (w : World) : Preserves (GracedAt pt) w (geometryCheck pt i w).2 := by
  have hne := toChar_ne _ _ hv.2.1.1 hv.2.1.2 hv.2.2.2.2.2 hv.2.2.1.1 hv.2.2.1.2
  intro hok
  refine ⟨geometryCheck_clockOk pt i w hok, fun hA => ?_⟩
  unfold geometryCheck
  simp only
  split_ifs
  · exact (hA.cons_other _ (by simp) (by simp [pendingKeepalive, Ne.symm hne])).cons_other _
      (by simp) (by simp [pendingKeepalive])
  · exact hA.cons_other _ (by simp) (by simp [pendingKeepalive, Ne.symm hne])
  · exact hA
  · exact hA

/-- C2 (as stated, refuted): a run with a clock that never goes backwards in which the
transport is closed 2 seconds after the KeepAlive that set the flag. The deadline is 105;
at 106 the check sends a KeepAlive and sets the flag; in the next tick, still at 106, a
`TerminalBuffer` frame is read, which moves the deadline to 107 and leaves the flag set; at
108 the check fires again and closes the transport. -/
theorem grace_window_counterexample :
    (sessionLoop pt0
      [quiet 106,
       { quiet 106 with inbound := [.frame [toChar pt0.TERMINAL_BUFFER] (some [104]) 106 true] },
       quiet 108] (startSession raw0 env0)).2.clockOk = true ∧
    (sessionLoop pt0
      [quiet 106,
       { quiet 106 with inbound := [.frame [toChar pt0.TERMINAL_BUFFER] (some [104]) 106 true] },
       quiet 108] (startSession raw0 env0)).2.trace =
      [(108, .closeSocket), (106, .writeStdout [104]), (106, .readProto [104]),
       (106, .readMessage [toChar pt0.TERMINAL_BUFFER]),
       (106, .writeMessage [toChar pt0.KEEP_ALIVE])] ∧
    ¬ GraceWindow pt0 5 5 (sessionLoop pt0
      [quiet 106,
       { quiet 106 with inbound := [.frame [toChar pt0.TERMINAL_BUFFER] (some [104]) 106 true] },
       quiet 108] (startSession raw0 env0)).2.trace := by
  have htr : (sessionLoop pt0
      [quiet 106,
       { quiet 106 with inbound := [.frame [toChar pt0.TERMINAL_BUFFER] (some [104]) 106 true] },
       quiet 108] (startSession raw0 env0)).2.trace =
      [(108, .closeSocket), (106, .writeStdout [104]), (106, .readProto [104]),
       (106, .readMessage [toChar pt0.TERMINAL_BUFFER]),
       (106, .writeMessage [toChar pt0.KEEP_ALIVE])] := by decide
  refine ⟨by decide, htr, fun h => ?_⟩
  rw [htr] at h
  obtain ⟨p, hp, hle, _⟩ := h [] 108 _ rfl
  have hp1 : p = (106, true) := by
    have : pendingKeepalive pt0 [(106, .writeStdout [104]), (106, .readProto [104]),
        (106, .readMessage [toChar pt0.TERMINAL_BUFFER]),
        (106, .writeMessage [toChar pt0.KEEP_ALIVE])] = some (106, true) := by decide
    rw [this] at hp
    exact (Option.some.inj hp).symm
  rw [hp1] at hle
  exact absurd hle (by decide)

/-- C2 (amended): in every run of the session loop with a clock that never goes backwards,
for every interleaving of local input and inbound frames, whenever the keepalive check
closes the transport, a KeepAlive was sent before, the close comes at least 2 seconds after
the last KeepAlive sent, and at least 5 seconds after it if no `TerminalBuffer` frame was
read in between. -/
theorem grace_window (pt : PacketType) (hv : pt.Valid) (cfmakeraw : Termios → Termios)
    (env : Env) (ticks : List TickInput)
    (hclock : (sessionLoop pt ticks (startSession cfmakeraw env)).2.clockOk = true) :
    GraceWindow pt 2 5 (sessionLoop pt ticks (startSession cfmakeraw env)).2.trace := by
  have hstart : GracedAt pt (startSession cfmakeraw env) := by
    refine ⟨fun later t earlier heq => ?_, fun hw => ?_⟩
    · simp [startSession] at heq
    · simp [startSession] at hw
  have hrun := sessionLoop_preserves pt (GracedAt pt) ticks (fun i _ w =>
    tick_preserves pt (GracedAt pt) i (fun _ h => h)
      (localInput_graced pt hv i.input) (drain_graced pt i.inbound)
      (keepaliveCheck_graced pt i.keepalive) (geometryCheck_graced pt hv i.geometry) w)
    (startSession cfmakeraw env)
  exact ((hrun hclock).2 hstart).1

/-- Witness for C2 (amended): with no inbound frame the KeepAlive sent at 106 is followed
by a close at 112; the clock is in order and the statement applies to the run. -/
theorem grace_window_witness :
    (sessionLoop pt0 [quiet 106, quiet 109, quiet 111, quiet 112]
      (startSession raw0 env0)).2.trace =
      [(112, .closeSocket), (106, .writeMessage [toChar pt0.KEEP_ALIVE])] ∧
    GraceWindow pt0 2 5 (sessionLoop pt0 [quiet 106, quiet 109, quiet 111, quiet 112]
      (startSession raw0 env0)).2.trace :=
  ⟨by decide,
    grace_window pt0 (by decide) raw0 env0 [quiet 106, quiet 109, quiet 111, quiet 112]
      (by decide)⟩

end ET
